import Mathlib

/-!
Shallow embedding of the AT-command framer and responder in
`src/src/fake_modem.c`: the line assembler inside `fake_modem_task`,
the responder `process_line`, and the receive loop, together with
theorems about their byte-level behavior.

Bytes are modelled as `Nat` (the code compares bytes only for equality
with constants, so no modular arithmetic is needed).  Byte strings are
`List Nat`.  The line buffer state of `fake_modem_task` is represented
by the list of bytes `line_buf[0 .. line_pos)`; `line_pos` is its
length.  Cells of `line_buf` at or beyond `line_pos` are never read by
the program, so they are not part of the state.
-/

namespace FakeModem

/-- `LINE_BUF_SIZE` from fake_modem.c: capacity of the line buffer. -/
def LINE_BUF_SIZE : Nat := 128

/-- The terminator test of `fake_modem_task`:
`byte == '\r' || byte == '\n'` (13 and 10). -/
def isTerm (b : Nat) : Bool := b == 13 || b == 10

/-- The bytes of the literal `"AT"`. -/
def CMD_AT : List Nat := [65, 84]

/-- The bytes of the literal `"AT+CSQ"`. -/
def CMD_CSQ : List Nat := [65, 84, 43, 67, 83, 81]

/-- The bytes of the response literal `"\r\nOK\r\n"`. -/
def RESP_OK : List Nat := [13, 10, 79, 75, 13, 10]

/-- The bytes of the response literal `"\r\n+CSQ: 20,99\r\nOK\r\n"`. -/
def RESP_CSQ : List Nat :=
  [13, 10, 43, 67, 83, 81, 58, 32, 50, 48, 44, 57, 57, 13, 10, 79, 75, 13, 10]

/-- The bytes of the response literal `"\r\nERROR\r\n"`. -/
def RESP_ERROR : List Nat := [13, 10, 69, 82, 82, 79, 82, 13, 10]

/-- The byte string a `char *` denotes when read as a NUL-terminated C
string: the bytes before the first 0 byte.  `strcmp` with a NUL-free
literal returns 0 exactly when this projection equals the literal. -/
def cstr (bs : List Nat) : List Nat := bs.takeWhile (fun b => b ≠ 0)

/-- `process_line` from fake_modem.c.  Its argument is the byte string
held in `line_buf[0 .. line_pos)` at dispatch time; the code
NUL-terminates the buffer and matches it with `strcmp` against `"AT"`
and `"AT+CSQ"`, so the match sees only the bytes before the first NUL.
The result is the byte string passed to `send_response`, i.e. written
to the outbound UART. -/
def process_line (line : List Nat) : List Nat :=
  if cstr line = CMD_AT then RESP_OK
  else if cstr line = CMD_CSQ then RESP_CSQ
  else RESP_ERROR

/-- The Command Responder as section 4.2 of the spec words it:
byte-for-byte equality of the whole command against the response
table, with the `ERROR` literal as the fallback.  Used to compare the
spec's wording with `process_line`. -/
def respond_spec (cmd : List Nat) : List Nat :=
  if cmd = CMD_AT then RESP_OK
  else if cmd = CMD_CSQ then RESP_CSQ
  else RESP_ERROR

/-- One iteration of the receive loop of `fake_modem_task` on a byte
that did arrive (`n = 1`).  Input: the current line buffer contents.
Output: the new buffer contents, and the dispatched command line when
the byte completed one (`process_line` is called on exactly that
line).  Mirrors lines 145-169 of fake_modem.c: a terminator dispatches
a non-empty buffer and resets it, an empty buffer ignores the
terminator; any other byte is appended, and if the length then reaches
`LINE_BUF_SIZE - 1` the whole buffer is discarded. -/
def fake_modem_step (buf : List Nat) (b : Nat) : List Nat × Option (List Nat) :=
  if isTerm b then
    if 0 < buf.length then ([], some buf) else (buf, none)
  else
    let grown := buf ++ [b]
    if LINE_BUF_SIZE - 1 ≤ grown.length then ([], none) else (grown, none)

/-- Run the receive loop from buffer state `buf` over a list of
arrived bytes.  Returns the final buffer contents and the command
lines dispatched to `process_line`, in order. -/
def runFrom (buf : List Nat) : List Nat → List Nat × List (List Nat)
  | [] => (buf, [])
  | b :: bs =>
    let s := fake_modem_step buf b
    let r := runFrom s.1 bs
    (r.1, s.2.toList ++ r.2)

/-- The command lines dispatched when the task starts with an empty
buffer and receives `input`. -/
def dispatches (input : List Nat) : List (List Nat) := (runFrom [] input).2

/-- The line buffer contents after the task, started with an empty
buffer, has processed `input`. -/
def finalBuf (input : List Nat) : List Nat := (runFrom [] input).1

/-- All response bytes written to the outbound UART while processing
`input` from an empty buffer: the concatenation of `process_line`'s
responses to the dispatched lines. -/
def responses (input : List Nat) : List Nat :=
  ((dispatches input).map process_line).flatten

/-- One iteration of the full loop body including the
`uart_read_bytes` result: `none` is a timeout (`n <= 0`, the loop
`continue`s, state untouched), `some b` is an arrived byte. -/
def rxStep (buf : List Nat) (ev : Option Nat) : List Nat × Option (List Nat) :=
  match ev with
  | none => (buf, none)
  | some b => fake_modem_step buf b

/-- Run the loop from buffer state `buf` over a list of receive
events (timeouts and bytes). -/
def runRxFrom (buf : List Nat) : List (Option Nat) → List Nat × List (List Nat)
  | [] => (buf, [])
  | ev :: evs =>
    let s := rxStep buf ev
    let r := runRxFrom s.1 evs
    (r.1, s.2.toList ++ r.2)

/-- All response bytes written while processing a list of receive
events from an empty buffer. -/
def responsesRx (evs : List (Option Nat)) : List Nat :=
  (((runRxFrom [] evs).2).map process_line).flatten

/-- The indices of `line_buf` written during one loop iteration on an
arrived byte: an ordinary byte is stored at index `line_pos`
(`line_buf[line_pos] = byte`), a terminator on a non-empty buffer
stores the NUL marker at index `line_pos` (`line_buf[line_pos] = 0`),
and a terminator on an empty buffer writes nothing. -/
def writeIdx (buf : List Nat) (b : Nat) : List Nat :=
  if isTerm b then
    if 0 < buf.length then [buf.length] else []
  else [buf.length]

/-- The indices of every `line_buf` write performed while running from
buffer state `buf` over the arrived bytes. -/
def writeTraceFrom (buf : List Nat) : List Nat → List Nat
  | [] => []
  | b :: bs => writeIdx buf b ++ writeTraceFrom (fake_modem_step buf b).1 bs

/-- The indices of every `line_buf` write performed on `input`,
starting from an empty buffer. -/
def writeTrace (input : List Nat) : List Nat := writeTraceFrom [] input

/-! ### Unfolding equations and single-step lemmas -/

theorem runFrom_nil (buf : List Nat) : runFrom buf [] = (buf, []) := rfl

theorem runFrom_cons (buf : List Nat) (b : Nat) (bs : List Nat) :
    runFrom buf (b :: bs) =
      ((runFrom (fake_modem_step buf b).1 bs).1,
        (fake_modem_step buf b).2.toList ++ (runFrom (fake_modem_step buf b).1 bs).2) := rfl

theorem step_term_dispatch (buf : List Nat) (b : Nat) (hb : isTerm b = true)
    (h : 0 < buf.length) : fake_modem_step buf b = ([], some buf) := by
  simp [fake_modem_step, hb, h]

theorem step_term_empty (b : Nat) (hb : isTerm b = true) :
    fake_modem_step [] b = ([], none) := by
  simp [fake_modem_step, hb]

theorem step_data_keep (buf : List Nat) (b : Nat) (hb : isTerm b = false)
    (h : buf.length < 126) : fake_modem_step buf b = (buf ++ [b], none) := by
  simp only [fake_modem_step, hb, Bool.false_eq_true, if_false, LINE_BUF_SIZE]
  rw [if_neg]
  simp only [List.length_append, List.length_cons, List.length_nil]
  omega

theorem step_data_discard (buf : List Nat) (b : Nat) (hb : isTerm b = false)
    (h : 126 ≤ buf.length) : fake_modem_step buf b = ([], none) := by
  simp only [fake_modem_step, hb, Bool.false_eq_true, if_false, LINE_BUF_SIZE]
  rw [if_pos]
  simp only [List.length_append, List.length_cons, List.length_nil]
  omega

/-- After any single step from a buffer within the bound, the buffer
stays within the bound: `line_pos` never exceeds 126 between
iterations. -/
theorem step_len_le (buf : List Nat) (b : Nat) (h : buf.length ≤ 126) :
    (fake_modem_step buf b).1.length ≤ 126 := by
  simp only [fake_modem_step, LINE_BUF_SIZE]
  split
  · split
    · simp
    · simpa using h
  · split
    · simp
    · rename_i hcap
      simp only [List.length_append, List.length_cons, List.length_nil] at hcap ⊢
      omega

/-- The buffer after a step is either empty or the old buffer with the
byte appended; when it is the unchanged old buffer, that buffer was
empty. -/
theorem step_fst_cases (buf : List Nat) (b : Nat) :
    (fake_modem_step buf b).1 = [] ∨ (fake_modem_step buf b).1 = buf ++ [b] := by
  simp only [fake_modem_step]
  split
  · split
    · simp
    · rename_i hp
      left
      have : buf.length = 0 := by omega
      simpa using List.length_eq_zero.mp this
  · split
    · simp
    · simp

/-- A dispatched line is the old buffer, and only a non-empty buffer is
dispatched. -/
theorem step_snd_some (buf : List Nat) (b : Nat) (d : List Nat)
    (h : (fake_modem_step buf b).2 = some d) : d = buf ∧ 0 < buf.length := by
  simp only [fake_modem_step] at h
  split at h
  · split at h
    · rename_i hp
      simp only at h
      exact ⟨(Option.some_inj.mp h).symm, hp⟩
    · simp at h
  · split at h <;> simp at h

/-! ### Run-level lemmas -/

theorem runFrom_append (xs : List Nat) : ∀ (buf : List Nat) (ys : List Nat),
    runFrom buf (xs ++ ys) =
      ((runFrom (runFrom buf xs).1 ys).1,
        (runFrom buf xs).2 ++ (runFrom (runFrom buf xs).1 ys).2) := by
  induction xs with
  | nil => intro buf ys; simp [runFrom_nil]
  | cons b bs ih =>
    intro buf ys
    simp only [List.cons_append, runFrom_cons, ih, List.append_assoc]

/-- Running over terminator-free bytes dispatches nothing, and the
buffer ends up holding the tail of `buf ++ l` that remains after the
last overflow reset: its final length is `(buf.length + l.length) % 127`. -/
theorem runFrom_data (l : List Nat) : ∀ buf : List Nat,
    (∀ b ∈ l, isTerm b = false) → buf.length ≤ 126 →
    runFrom buf l =
      ((buf ++ l).drop (buf.length + l.length - (buf.length + l.length) % 127), []) := by
  induction l with
  | nil =>
    intro buf _ hlen
    have h1 : buf.length % 127 = buf.length := Nat.mod_eq_of_lt (by omega)
    simp [runFrom_nil, h1]
  | cons b bs ih =>
    intro buf h hlen
    have hb : isTerm b = false := h b (List.mem_cons_self b bs)
    have hbs : ∀ x ∈ bs, isTerm x = false := fun x hx => h x (List.mem_cons_of_mem b hx)
    by_cases hc : buf.length < 126
    · rw [runFrom_cons, step_data_keep buf b hb hc]
      rw [ih (buf ++ [b]) hbs (by simp only [List.length_append, List.length_cons, List.length_nil]; omega)]
      have harith : (buf ++ [b]).length + bs.length - ((buf ++ [b]).length + bs.length) % 127
          = buf.length + (b :: bs).length - (buf.length + (b :: bs).length) % 127 := by
        simp only [List.length_append, List.length_cons, List.length_nil]
        omega
      have hlist : (buf ++ [b]) ++ bs = buf ++ b :: bs := by simp
      simp only [harith, hlist, Option.toList_none, List.nil_append]
    · have h126 : buf.length = 126 := by omega
      rw [runFrom_cons, step_data_discard buf b hb (by omega)]
      rw [ih [] hbs (by simp)]
      have e1 : buf ++ b :: bs = (buf ++ [b]) ++ bs := by simp
      have e2 : buf.length + (b :: bs).length - (buf.length + (b :: bs).length) % 127
          = (buf ++ [b]).length + (bs.length - bs.length % 127) := by
        simp only [List.length_append, List.length_cons, List.length_nil, h126]
        omega
      rw [e1, e2, List.drop_append]
      simp [Nat.mod_eq_of_lt]

/-- Special case: a terminator-free byte string that still fits in the
buffer is appended in full, with no dispatch and no reset. -/
theorem runFrom_fits (l buf : List Nat) (h : ∀ b ∈ l, isTerm b = false)
    (hlen : buf.length + l.length ≤ 126) : runFrom buf l = (buf ++ l, []) := by
  rw [runFrom_data l buf h (by omega)]
  have hm : (buf.length + l.length) % 127 = buf.length + l.length :=
    Nat.mod_eq_of_lt (by omega)
  simp [hm]

theorem runFrom_len_le (l : List Nat) : ∀ buf : List Nat, buf.length ≤ 126 →
    (runFrom buf l).1.length ≤ 126 := by
  induction l with
  | nil => intro buf h; simpa [runFrom_nil] using h
  | cons b bs ih =>
    intro buf h
    rw [runFrom_cons]
    exact ih _ (step_len_le buf b h)

theorem runFrom_suffix (l : List Nat) : ∀ buf : List Nat,
    (runFrom buf l).1 <:+ buf ++ l := by
  induction l with
  | nil => intro buf; simp [runFrom_nil]
  | cons b bs ih =>
    intro buf
    rw [runFrom_cons]
    have h1 := ih (fake_modem_step buf b).1
    have h2 : (fake_modem_step buf b).1 ++ bs <:+ (buf ++ [b]) ++ bs := by
      rcases step_fst_cases buf b with hh | hh
      · rw [hh]
        simpa using List.suffix_append (buf ++ [b]) bs
      · rw [hh]
    have h3 := h1.trans h2
    simpa using h3

/-- A byte found in the buffer after one step was either already
there, or is the processed byte and is not a terminator. -/
theorem step_fst_mem (buf : List Nat) (b : Nat) (x : Nat)
    (hx : x ∈ (fake_modem_step buf b).1) : x ∈ buf ∨ (x = b ∧ isTerm b = false) := by
  simp only [fake_modem_step] at hx
  split at hx
  · split at hx
    · simp at hx
    · exact Or.inl (by simpa using hx)
  · rename_i ht
    split at hx
    · simp at hx
    · simp only [List.mem_append, List.mem_singleton] at hx
      rcases hx with h1 | h1
      · exact Or.inl h1
      · exact Or.inr ⟨h1, by simpa using ht⟩

theorem runFrom_buf_no_term (l : List Nat) : ∀ buf : List Nat,
    (∀ x ∈ buf, isTerm x = false) → ∀ x ∈ (runFrom buf l).1, isTerm x = false := by
  induction l with
  | nil => intro buf h; simpa [runFrom_nil] using h
  | cons b bs ih =>
    intro buf h
    rw [runFrom_cons]
    refine ih _ ?_
    intro x hx
    rcases step_fst_mem buf b x hx with h1 | ⟨h1, h2⟩
    · exact h x h1
    · rw [h1]; exact h2

theorem runFrom_dispatch_mem (l : List Nat) : ∀ buf d, d ∈ (runFrom buf l).2 → d ≠ [] := by
  induction l with
  | nil => intro buf d h; simp [runFrom_nil] at h
  | cons b bs ih =>
    intro buf d h
    rw [runFrom_cons] at h
    rcases List.mem_append.mp h with h1 | h2
    · have hsome : (fake_modem_step buf b).2 = some d := by
        cases hs : (fake_modem_step buf b).2 with
        | none => rw [hs] at h1; simp at h1
        | some e =>
          rw [hs] at h1
          simp only [Option.toList_some, List.mem_singleton] at h1
          subst h1
          rfl
      obtain ⟨hd, hp⟩ := step_snd_some buf b d hsome
      rw [hd]
      exact List.length_pos.mp hp
    · exact ih _ _ h2

theorem writeTraceFrom_nil (buf : List Nat) : writeTraceFrom buf [] = [] := rfl

theorem writeTraceFrom_cons (buf : List Nat) (b : Nat) (bs : List Nat) :
    writeTraceFrom buf (b :: bs) =
      writeIdx buf b ++ writeTraceFrom (fake_modem_step buf b).1 bs := rfl

theorem writeTraceFrom_lt (l : List Nat) : ∀ buf : List Nat, buf.length ≤ 126 →
    ∀ i ∈ writeTraceFrom buf l, i < 128 := by
  induction l with
  | nil => intro buf _ i hi; simp [writeTraceFrom_nil] at hi
  | cons b bs ih =>
    intro buf h i hi
    rw [writeTraceFrom_cons] at hi
    rcases List.mem_append.mp hi with h1 | h2
    · have : i = buf.length := by
        simp only [writeIdx] at h1
        split at h1
        · split at h1
          · simpa using h1
          · simp at h1
        · simpa using h1
      omega
    · exact ih _ (step_len_le buf b h) i h2

theorem runRxFrom_nil (buf : List Nat) : runRxFrom buf [] = (buf, []) := rfl

theorem runRxFrom_cons (buf : List Nat) (ev : Option Nat) (evs : List (Option Nat)) :
    runRxFrom buf (ev :: evs) =
      ((runRxFrom (rxStep buf ev).1 evs).1,
        (rxStep buf ev).2.toList ++ (runRxFrom (rxStep buf ev).1 evs).2) := rfl

/-- Timeouts are invisible: a run over receive events equals the run
over just the bytes that actually arrived. -/
theorem runRxFrom_eq (evs : List (Option Nat)) : ∀ buf : List Nat,
    runRxFrom buf evs = runFrom buf (evs.filterMap id) := by
  induction evs with
  | nil => intro buf; rfl
  | cons ev evs ih =>
    intro buf
    cases ev with
    | none => simp [runRxFrom_cons, rxStep, ih, List.filterMap_cons]
    | some b => simp [runRxFrom_cons, rxStep, ih, List.filterMap_cons, runFrom_cons]

-- Sanity checks on concrete inputs, mirroring the end-to-end
-- scenarios of the spec.
example : responses [65, 84, 13, 10] = RESP_OK := by decide
example : responses [65, 84, 43, 67, 83, 81, 13, 10] = RESP_CSQ := by decide
example : responses [65, 84, 43, 88, 13] = RESP_ERROR := by decide
example : dispatches [13, 10] = [] := by decide

/-! ### Claims -/

/-- C1, counterexample: through the real dispatch path, the line whose
bytes are 'A','T',NUL,'X' is a dispatched command line that differs
byte-for-byte from "AT" (and from "AT+CSQ"), yet its response is
"\r\nOK\r\n", not "\r\nERROR\r\n", because `strcmp` stops at the NUL. -/
theorem c1_nul_counterexample :
    dispatches [65, 84, 0, 88, 13] = [[65, 84, 0, 88]] ∧
    responses [65, 84, 0, 88, 13] = RESP_OK ∧
    [65, 84, 0, 88] ≠ CMD_AT ∧ [65, 84, 0, 88] ≠ CMD_CSQ ∧
    RESP_OK ≠ RESP_ERROR := by
  decide

/-- C1 (amended): the responder's match is byte-for-byte equality of
the command line's bytes up to the first NUL byte (the buffer read as
a NUL-terminated C string): that projection equal to "AT" yields
"\r\nOK\r\n", equal to "AT+CSQ" yields "\r\n+CSQ: 20,99\r\nOK\r\n",
and anything else yields "\r\nERROR\r\n"; for command lines containing
no NUL byte this is byte-for-byte equality of the whole line, with no
prefix matching, no trimming and no case folding. -/
theorem c1_respond_exact : ∀ line : List Nat,
    process_line line = respond_spec (cstr line) ∧
    ((∀ b ∈ line, b ≠ 0) → process_line line = respond_spec line) := by
  intro line
  constructor
  · rfl
  · intro h
    have hc : cstr line = line := by
      refine List.takeWhile_eq_self_iff.mpr ?_
      intro x hx
      simpa using h x hx
    simp only [process_line, respond_spec, hc]

/-- C1, witness for the amended theorem at the line "AT". -/
theorem c1_respond_exact_witness :
    process_line [65, 84] = respond_spec [65, 84] :=
  (c1_respond_exact [65, 84]).2 (by decide)

/-- C2, counterexample: the empty byte sequence contains no terminator
and is shorter than 127 bytes, but feeding it (no bytes) followed by a
single terminator dispatches zero command lines, not exactly one. -/
theorem c2_empty_sequence_counterexample :
    dispatches ([] ++ [13]) = [] ∧
    dispatches ([] ++ [13]) ≠ [([] : List Nat)] := by
  decide

/-- C2 (amended): for every NON-EMPTY byte sequence with no '\r' or
'\n' byte and shorter than 127 bytes, feeding its bytes one at a time
from startup followed by a single terminator byte dispatches exactly
one command line equal to the original sequence and leaves the buffer
empty. -/
theorem c2_line_roundtrip : ∀ (l : List Nat) (t : Nat), l ≠ [] →
    (∀ b ∈ l, isTerm b = false) → l.length < 127 → isTerm t = true →
    runFrom [] (l ++ [t]) = ([], [l]) := by
  intro l t hne h hlen ht
  have hl : 0 < l.length := List.length_pos.mpr hne
  have h1 : runFrom [] l = (l, []) := by
    simpa using runFrom_fits l [] h (by simp; omega)
  rw [runFrom_append, h1]
  simp [runFrom_cons, step_term_dispatch l t ht hl, runFrom_nil]

/-- C2, witness for the amended theorem at the line "AT" with '\r'. -/
theorem c2_line_roundtrip_witness :
    runFrom [] ([65, 84] ++ [13]) = ([], [[65, 84]]) :=
  c2_line_roundtrip [65, 84] 13 (by decide) (by decide) (by decide) (by decide)

set_option maxRecDepth 10000 in
/-- C3, counterexample: after 126 junk bytes no reset has happened
(the buffer still holds all 126 bytes; the reset happens at the 127th
byte), and after 200 junk bytes the 200 mod 127 = 73 leftover bytes
contaminate the next line: a subsequent "AT\r\n" is answered with
"\r\nERROR\r\n", not "\r\nOK\r\n". -/
theorem c3_contamination_counterexample :
    finalBuf (List.replicate 126 88) = List.replicate 126 88 ∧
    finalBuf (List.replicate 127 88) = [] ∧
    responses (List.replicate 200 88 ++ [65, 84, 13, 10]) = RESP_ERROR ∧
    RESP_ERROR ≠ RESP_OK := by
  decide

/-- C3 (amended): for any terminator-free junk run longer than 126
bytes, no command line is ever dispatched during the run and the
buffer resets each time its length would reach 127 (first at the 127th
byte), so it never exceeds capacity; after the run the buffer holds
the last `length mod 127` junk bytes, and the next well-formed line is
dispatched cleanly exactly when that leftover is empty (junk length a
multiple of 127), in which case "AT" followed by "\r\n" yields
"\r\nOK\r\n". -/
theorem c3_overflow_behavior : ∀ junk : List Nat,
    (∀ b ∈ junk, isTerm b = false) → 126 < junk.length →
    dispatches junk = [] ∧
    finalBuf junk = junk.drop (junk.length - junk.length % 127) ∧
    (junk.length % 127 = 0 → responses (junk ++ [65, 84, 13, 10]) = RESP_OK) := by
  intro junk h hlen
  have hd := runFrom_data junk [] h (by simp)
  simp only [List.nil_append, List.length_nil, Nat.zero_add] at hd
  refine ⟨by simp [dispatches, hd], by simp [finalBuf, hd], ?_⟩
  intro hm
  have hfinal : runFrom [] junk = ([], []) := by
    rw [hd, hm]
    simp [List.drop_length]
  have h2 : runFrom ([] : List Nat) [65, 84, 13, 10] = ([], [[65, 84]]) := by decide
  have h3 := runFrom_append junk [] [65, 84, 13, 10]
  rw [hfinal] at h3
  simp only [h2] at h3
  simp [responses, dispatches, h3]
  decide

set_option maxRecDepth 10000 in
/-- C3, witness for the amended theorem: 127 junk bytes leave no
residue, so the following "AT\r\n" is answered with "\r\nOK\r\n". -/
theorem c3_overflow_behavior_witness :
    responses (List.replicate 127 88 ++ [65, 84, 13, 10]) = RESP_OK :=
  (c3_overflow_behavior (List.replicate 127 88) (by decide) (by decide)).2.2 (by decide)

/-- C4: a terminator byte on an empty buffer dispatches nothing and
leaves the state unchanged; feeding only '\r' then '\n' dispatches
zero command lines; and a non-empty line ended by the "\r\n" pair is
dispatched exactly once, not twice. -/
theorem c4_empty_terminator : ∀ t : Nat, isTerm t = true →
    fake_modem_step [] t = ([], none) ∧
    dispatches [13, 10] = [] ∧
    (∀ l : List Nat, l ≠ [] → (∀ b ∈ l, isTerm b = false) → l.length < 127 →
      dispatches (l ++ [13, 10]) = [l]) := by
  intro t ht
  refine ⟨step_term_empty t ht, by decide, ?_⟩
  intro l hne h hlen
  have hl : 0 < l.length := List.length_pos.mpr hne
  have h1 : runFrom [] l = (l, []) := by
    simpa using runFrom_fits l [] h (by simp; omega)
  have h2 : runFrom l [13, 10] = ([], [l]) := by
    rw [runFrom_cons, step_term_dispatch l 13 (by decide) hl]
    simp [runFrom_cons, step_term_empty 10 (by decide), runFrom_nil]
  have h3 := runFrom_append l [] [13, 10]
  rw [h1] at h3
  simp only [h2] at h3
  simp [dispatches, h3]

/-- C4, witness: at t = '\r' and the line "A". -/
theorem c4_empty_terminator_witness : dispatches ([65] ++ [13, 10]) = [[65]] :=
  (c4_empty_terminator 13 (by decide)).2.2 [65] (by decide) (by decide) (by decide)

/-- C5: when appending a byte would make the fill length reach
`LINE_BUF_SIZE - 1` = 127, the whole buffered line is discarded: the
buffer becomes empty and nothing is dispatched (hence no response
bytes are sent for the discarded line); it is never truncated and
kept. -/
theorem c5_overflow_discards_line : ∀ (buf : List Nat) (b : Nat),
    isTerm b = false → buf.length + 1 = LINE_BUF_SIZE - 1 →
    fake_modem_step buf b = ([], none) := by
  intro buf b hb h
  refine step_data_discard buf b hb ?_
  simp only [LINE_BUF_SIZE] at h
  omega

set_option maxRecDepth 10000 in
/-- C5, witness: a buffer of 126 bytes plus one ordinary byte. -/
theorem c5_overflow_discards_line_witness :
    fake_modem_step (List.replicate 126 88) 65 = ([], none) :=
  c5_overflow_discards_line (List.replicate 126 88) 65 (by decide) (by decide)

/-- C6: for every inbound byte sequence, every write into `line_buf`
(the data-byte stores and the NUL marker stored at dispatch) uses an
index strictly below `LINE_BUF_SIZE` = 128; the per-byte step consumes
exactly one byte by construction. -/
theorem c6_writes_in_bounds : ∀ (input : List Nat) (i : Nat),
    i ∈ writeTrace input → i < LINE_BUF_SIZE := by
  intro input i hi
  have h := writeTraceFrom_lt input [] (by simp) i hi
  simpa [LINE_BUF_SIZE] using h

/-- C6, witness: the NUL-marker write of "AT\r" lands at index 2. -/
theorem c6_writes_in_bounds_witness : 2 < LINE_BUF_SIZE :=
  c6_writes_in_bounds [65, 84, 13] 2 (by decide)

/-- C7: after any processed input the line-buffer invariant holds: the
fill length is below `LINE_BUF_SIZE` = 128 (it never reaches capacity
without being reset), and the buffer holds exactly the bytes of the
in-progress line: a terminator-free suffix of the fed bytes. -/
theorem c7_buffer_invariant : ∀ input : List Nat,
    (finalBuf input).length < LINE_BUF_SIZE ∧
    finalBuf input <:+ input ∧
    ∀ b ∈ finalBuf input, isTerm b = false := by
  intro input
  refine ⟨?_, ?_, ?_⟩
  · have h := runFrom_len_le input [] (by simp)
    simp only [finalBuf, LINE_BUF_SIZE]
    omega
  · simpa [finalBuf] using runFrom_suffix input []
  · intro b hb
    exact runFrom_buf_no_term input [] (by simp) b hb

/-- C7, witness: after feeding "A", the buffered byte is 'A', which is
not a terminator. -/
theorem c7_buffer_invariant_witness : isTerm 65 = false :=
  (c7_buffer_invariant [65]).2.2 65 (by decide)

/-- C8: every command line the assembler dispatches to the responder
is non-empty: the empty command cannot reach `process_line` through
the dispatch path. -/
theorem c8_dispatched_nonempty : ∀ (input : List Nat) (l : List Nat),
    l ∈ dispatches input → l ≠ [] := by
  intro input l h
  exact runFrom_dispatch_mem input [] l h

/-- C8, witness: the line dispatched by "AT\r" is non-empty. -/
theorem c8_dispatched_nonempty_witness : ([65, 84] : List Nat) ≠ [] :=
  c8_dispatched_nonempty [65, 84, 13] [65, 84] (by decide)

/-- C9: the responder's match is decided only by the bytes preceding
the first NUL byte of the dispatched line (the buffer is matched as a
NUL-terminated C string); in particular the line 'A','T',NUL,'X'
receives "\r\nOK\r\n". -/
theorem c9_nul_truncates_match :
    (∀ line : List Nat, process_line line = process_line (cstr line)) ∧
    process_line [65, 84, 0, 88] = RESP_OK := by
  constructor
  · intro line
    simp only [process_line, cstr, List.takeWhile_idem]
  · decide

/-- C10: determinism with respect to the inbound byte sequence: two
receive-event sequences (arrived bytes interleaved arbitrarily with
timeouts, which leave the state unchanged) that deliver the same bytes
produce byte-identical response streams. -/
theorem c10_response_determinism : ∀ evs1 evs2 : List (Option Nat),
    evs1.filterMap id = evs2.filterMap id →
    responsesRx evs1 = responsesRx evs2 := by
  intro evs1 evs2 h
  simp only [responsesRx, runRxFrom_eq, h]

/-- C10, witness: "AT\r" delivered with two different timeout
interleavings produces the same responses. -/
theorem c10_response_determinism_witness :
    responsesRx [some 65, none, some 84, some 13] =
      responsesRx [none, some 65, some 84, none, some 13] :=
  c10_response_determinism [some 65, none, some 84, some 13]
    [none, some 65, some 84, none, some 13] (by decide)

end FakeModem
